import Mathlib

/-!
Verification of the med-equipment-scraper-suite crawl/upsert engine.

The Python sources are shallowly embedded as pure Lean functions:

* dictionaries passed to the save paths become records whose fields are
  `Option`-valued (`none` = key absent / value `None` after the scrapers'
  clean-up step that strips `None` values);
* the MySQL `products` table and its child tables become lists of rows;
* raised exceptions become `Except`/`Option` results;
* awaited page reads become explicit page-state structures holding the
  values the rendering adapter would return (the adapter itself is an
  external collaborator per the spec);
* numeric scalars that the code merely passes through to the store
  (prices, ratings, order quantities) are carried as opaque strings,
  since no modelled code path computes with them.
-/

/-- Python-dict style merge of one optional value: an incoming present
value overwrites, an absent one leaves the stored value untouched. -/
def ovr {α : Type} (incoming stored : Option α) : Option α :=
  match incoming with
  | some v => some v
  | none => stored

/-- Python truthiness of an optional string (`None` and `""` are falsy). -/
def truthyOpt : Option String → Bool
  | none => false
  | some s => !s.isEmpty

/-- Positional label/value pairing used by the characteristics loops
(`for i in range(0, len, 2): if i + 1 < len: ...`): element at an even
index is the label, the next element the value, a trailing odd element
is dropped. -/
def pairUp {α : Type} : List α → List (α × α)
  | a :: b :: rest => (a, b) :: pairUp rest
  | _ => []

/-- Python dict assignment `d[k] = v`: overwrite in place if the key is
already bound (last wins), otherwise append, preserving insertion order. -/
def dictInsert (d : List (String × String)) (k v : String) : List (String × String) :=
  if d.any (fun p => p.1 == k) then
    d.map (fun p => if p.1 == k then (k, v) else p)
  else
    d ++ [(k, v)]

/-- The characteristics-extraction loop of `medicalexpo.py`: pair up the
`dt`/`dd` text contents, skip pairs where label or value is falsy
(empty), strip both and assign into the dict. -/
def addSpecPairs (d0 : List (String × String)) (elems : List String) : List (String × String) :=
  (pairUp elems).foldl
    (fun d kv => if kv.1.isEmpty || kv.2.isEmpty then d else dictInsert d kv.1.trim kv.2.trim)
    d0

/-- `url.split('/')[-1]`: the characters after the last `'/'`, or the
whole string when it contains no `'/'`. -/
def splitLast (u : List Char) : List Char :=
  (u.reverse.takeWhile (fun c => c ≠ '/')).reverse

/-! ### Regex models

The three `re.search` calls of the sources, specialised to their
patterns.  `re.search` tries the pattern at position 0, 1, ... and
returns the first (leftmost) match; `\d+` and `[^/]+` are greedy, and
for each of these patterns the greedy run is the only viable one, so a
match at a position is: the literal part, then the maximal qualifying
run (nonempty), then the rest of the literal part. -/

/-- The characters of the literal `".html"`. -/
def htmlLit : List Char := ['.', 'h', 't', 'm', 'l']

/-- One attempt of `re.search(r'/(\d+)\.html', url)` at the head of
`s`: `rest.takeWhile Char.isDigit` is the greedy `\d+` run. -/
def matchAlibabaAt : List Char → Option (List Char)
  | '/' :: rest =>
    if (rest.takeWhile Char.isDigit).isEmpty then none
    else if htmlLit.isPrefixOf (rest.drop (rest.takeWhile Char.isDigit).length) then
      some (rest.takeWhile Char.isDigit)
    else none
  | _ => none

/-- `re.search(r'/(\d+)\.html', url)`: leftmost match, captured digits. -/
def searchAlibabaId : List Char → Option (List Char)
  | [] => none
  | c :: cs =>
    match matchAlibabaAt (c :: cs) with
    | some ds => some ds
    | none => searchAlibabaId cs

/-- One attempt of `re.search(r'/p/([^/]+)', url)` at the head of `s`:
the takeWhile run is the greedy `[^/]+` capture. -/
def matchMedlineAt : List Char → Option (List Char)
  | '/' :: 'p' :: '/' :: rest =>
    if (rest.takeWhile (fun c => c ≠ '/')).isEmpty then none
    else some (rest.takeWhile (fun c => c ≠ '/'))
  | _ => none

/-- `re.search(r'/p/([^/]+)', url)`: leftmost match, captured segment. -/
def searchMedlineSku : List Char → Option (List Char)
  | [] => none
  | c :: cs =>
    match matchMedlineAt (c :: cs) with
    | some run => some run
    | none => searchMedlineSku cs

/-- The characters of the literal `"product-"`. -/
def productLit : List Char := ['p', 'r', 'o', 'd', 'u', 'c', 't', '-']

/-- One attempt of `re.search(r'product-(\d+-\d+)', url)` at the head. -/
def matchMeProductIdAt (s : List Char) : Option (List Char) :=
  if productLit.isPrefixOf s then
    let rest := s.drop productLit.length
    let d1 := rest.takeWhile Char.isDigit
    if d1.isEmpty then none
    else
      match rest.drop d1.length with
      | '-' :: rest2 =>
        let d2 := rest2.takeWhile Char.isDigit
        if d2.isEmpty then none else some (d1 ++ '-' :: d2)
      | _ => none
  else none

/-- `re.search(r'product-(\d+-\d+)', product_url)` from
`MedicalExpoScraper.scrape`: leftmost match, captured `\d+-\d+` token. -/
def searchMeProductId : List Char → Option (List Char)
  | [] => none
  | c :: cs =>
    match matchMeProductIdAt (c :: cs) with
    | some tok => some tok
    | none => searchMeProductId cs

/-- `AlibabaScraper.extract_product_id`: the captured digits when the
pattern matches, else `url.split('/')[-1]`. -/
def AlibabaScraper.extract_product_id (url : List Char) : List Char :=
  match searchAlibabaId url with
  | some ds => ds
  | none => splitLast url

/-- `MedlineScraper.extract_sku`: the captured segment when the pattern
matches, else `url.split('/')[-1]`. -/
def MedlineScraper.extract_sku (url : List Char) : List Char :=
  match searchMedlineSku url with
  | some run => run
  | none => splitLast url

/-- Declarative reading of `r'/(\d+)\.html'` having a match in `u`:
somewhere in `u` a `'/'` is followed by a nonempty digit run and then
`".html"`. -/
def hasAlibabaId (u : List Char) : Prop :=
  ∃ pre ds suf, u = pre ++ '/' :: (ds ++ htmlLit ++ suf) ∧ ds ≠ [] ∧ ∀ c ∈ ds, c.isDigit

/-- Declarative reading of `r'/p/([^/]+)'` having a match in `u`:
somewhere in `u` the literal `"/p/"` is followed by at least one
non-`'/'` character. -/
def hasMedlineSku (u : List Char) : Prop :=
  ∃ pre run suf, u = pre ++ '/' :: 'p' :: '/' :: (run ++ suf) ∧ run ≠ [] ∧ '/' ∉ run

/-! ### Data model: records and store rows -/

/-- A value bound to the `specifications` key: the Alibaba and
MedicalExpo scrapers build a flat label→value dict, the Medline scraper
a section→(label→value) nested dict.  Both are serialised by
`json.dumps` on write; the store column carries the structure itself. -/
inductive SpecDoc where
  | flat (entries : List (String × String))
  | nested (entries : List (String × List (String × String)))
deriving DecidableEq, Inhabited

/-- An entry of the `images` list (`{'url': ..., 'is_primary': ...}`). -/
structure ImageEntry where
  url : String
  is_primary : Option Bool := none
deriving DecidableEq, Inhabited

/-- The `pricing` dict built by `get_pricing` (all keys optional). -/
structure PricingEntry where
  currency : Option String := none
  min_price : Option String := none
  max_price : Option String := none
  unit : Option String := none
  min_order_quantity : Option String := none
deriving DecidableEq, Inhabited

/-- The `seller` dict built by `get_seller_info` (all keys optional). -/
structure SellerEntry where
  name : Option String := none
  rating : Option String := none
  location : Option String := none
  website : Option String := none
deriving DecidableEq, Inhabited

/-- The `product_data` dict handed to `BaseScraper.save_product`.
`source_id` and `name` are read with `product_data[...]` (the key is
always set by the Alibaba/Medline callers; `name`'s value may still be
`None`); the other scalar keys are read with `.get`, so absence and
`None` coincide; `specifications` defaults to `{}`. -/
structure BaseRecord where
  source_id : String
  name : Option String := none
  brand : Option String := none
  category : Option String := none
  description : Option String := none
  specifications : SpecDoc := .flat []
  images : Option (List ImageEntry) := none
  pricing : Option PricingEntry := none
  seller : Option SellerEntry := none
deriving DecidableEq, Inhabited

/-- A row of the `products` table: the union of the columns the two
save paths write.  Unwritten columns are `none` (SQL `NULL`). -/
structure ProductRow where
  id : Nat
  source : Option String := none
  source_id : Option String := none
  name : Option String := none
  brand : Option String := none
  category : Option String := none
  description : Option String := none
  manufacturer : Option String := none
  specifications : Option SpecDoc := none
  characteristics : Option SpecDoc := none
  features : Option (List String) := none
  url : Option String := none
  video_url : Option String := none
  catalog_status : Option String := none
  brand_model : Option String := none
  image_url : Option String := none
  created_at : Option Nat := none
  updated_at : Option Nat := none
deriving DecidableEq, Inhabited

/-- A row of the `images` table. -/
structure ImageRow where
  product_id : Nat
  url : String
  is_primary : Bool
deriving DecidableEq, Inhabited

/-- A row of the `pricing` table. -/
structure PricingRow where
  product_id : Nat
  currency : String
  min_price : Option String := none
  max_price : Option String := none
  unit : Option String := none
  min_order_quantity : Option String := none
deriving DecidableEq, Inhabited

/-- A row of the `sellers` table. -/
structure SellerRow where
  product_id : Nat
  name : Option String := none
  rating : Option String := none
  location : Option String := none
  website : Option String := none
deriving DecidableEq, Inhabited

/-- The relational store: the `products` table and its child tables. -/
structure Store where
  products : List ProductRow := []
  images : List ImageRow := []
  pricing : List PricingRow := []
  sellers : List SellerRow := []
deriving DecidableEq, Inhabited

/-- The empty store. -/
def emptyStore : Store := {}

/-- Index of the first row satisfying `p` (the `fetchone` of a `SELECT`
over the list model). -/
def findRowIdx (p : ProductRow → Bool) : List ProductRow → Option Nat
  | [] => none
  | r :: rest => if p r then some 0 else (findRowIdx p rest).map (· + 1)

/-- Modelled from the spec: the `products` table's uniqueness key.  The
`CREATE TABLE` DDL is not among the source files (schema migration is
out of scope per §1), and §3 fixes the natural key: `(source,
source_id)` "must be unique together".  MySQL's `ON DUPLICATE KEY
UPDATE` in `BaseScraper.save_product` therefore fires exactly on a row
with the same `(source, source_id)` pair. -/
def sameNaturalKey (row : ProductRow) (source : String) (sid : String) : Bool :=
  row.source == some source && row.source_id == some sid

/-- The `ON DUPLICATE KEY UPDATE` arm of `BaseScraper.save_product`:
every one of `name`, `brand`, `category`, `description`,
`specifications` is set to `VALUES(...)`, i.e. to the incoming value,
whether or not the incoming key was present (`.get` gives `None`, SQL
`NULL`, for an absent key). -/
def baseUpdateRow (rec : BaseRecord) (row : ProductRow) : ProductRow :=
  { row with
    name := rec.name
    brand := rec.brand
    category := rec.category
    description := rec.description
    specifications := some rec.specifications }

/-- The `INSERT` arm of `BaseScraper.save_product`: the seven listed
columns; the remaining columns keep their `NULL` defaults. -/
def baseInsertRow (source : String) (rec : BaseRecord) (idv : Nat) : ProductRow :=
  { id := idv
    source := some source
    source_id := some rec.source_id
    name := rec.name
    brand := rec.brand
    category := rec.category
    description := rec.description
    specifications := some rec.specifications }

/-- `BaseScraper.save_product`: one `INSERT ... ON DUPLICATE KEY UPDATE`
on `products` (see `baseInsertRow`/`baseUpdateRow`), followed by
unconditional `INSERT`s of the `images`, `pricing` and `seller`
children whenever those keys are present — no prior `DELETE` of the
existing child rows. -/
def BaseScraper.save_product (source : String) (rec : BaseRecord) (st : Store) : Store :=
  let found := findRowIdx (fun row => sameNaturalKey row source rec.source_id) st.products
  let upserted : List ProductRow × Nat :=
    match found with
    | some i =>
      let row := st.products.getD i default
      (st.products.set i (baseUpdateRow rec row), row.id)
    | none =>
      let row := baseInsertRow source rec st.products.length
      (st.products ++ [row], row.id)
  let pid := upserted.2
  let imgs :=
    match rec.images with
    | some l => st.images ++ l.map (fun im => ⟨pid, im.url, im.is_primary.getD false⟩)
    | none => st.images
  let prs :=
    match rec.pricing with
    | some p => st.pricing ++ [⟨pid, p.currency.getD "USD", p.min_price, p.max_price, p.unit, p.min_order_quantity⟩]
    | none => st.pricing
  let sls :=
    match rec.seller with
    | some s => st.sellers ++ [⟨pid, s.name, s.rating, s.location, s.website⟩]
    | none => st.sellers
  { products := upserted.1, images := imgs, pricing := prs, sellers := sls }

/-- The `product_data` dict handed to `MedicalExpoScraper.save_product`
after the callers' `None`-stripping comprehension: a field is `none`
exactly when its key is absent from the dict. -/
structure MeRecord where
  source : Option String := none
  source_id : Option String := none
  name : Option String := none
  manufacturer : Option String := none
  category : Option String := none
  description : Option String := none
  specifications : Option (List (String × String)) := none
  characteristics : Option (List (String × String)) := none
  features : Option (List String) := none
  url : Option String := none
  video_url : Option String := none
  catalog_status : Option String := none
  brand_model : Option String := none
  image_url : Option String := none
deriving DecidableEq, Inhabited

/-- The dynamic `UPDATE` of `MedicalExpoScraper.save_product`: every key
of the dict except `source_id` is written; keys absent from the dict
leave the stored column untouched; `updated_at` is refreshed and
`created_at`, `id` and `source_id` are not written. -/
def meUpdateRow (rec : MeRecord) (row : ProductRow) (t : Nat) : ProductRow :=
  { row with
    source := ovr rec.source row.source
    name := ovr rec.name row.name
    manufacturer := ovr rec.manufacturer row.manufacturer
    category := ovr rec.category row.category
    description := ovr rec.description row.description
    specifications := ovr (rec.specifications.map .flat) row.specifications
    characteristics := ovr (rec.characteristics.map .flat) row.characteristics
    features := ovr rec.features row.features
    url := ovr rec.url row.url
    video_url := ovr rec.video_url row.video_url
    catalog_status := ovr rec.catalog_status row.catalog_status
    brand_model := ovr rec.brand_model row.brand_model
    image_url := ovr rec.image_url row.image_url
    updated_at := some t }

/-- The dynamic `INSERT` of `MedicalExpoScraper.save_product`: the
columns of the present keys plus `created_at = updated_at = now`;
absent columns default to `NULL`. -/
def meInsertRow (rec : MeRecord) (sid : String) (idv t : Nat) : ProductRow :=
  { id := idv
    source := rec.source
    source_id := some sid
    name := rec.name
    manufacturer := rec.manufacturer
    category := rec.category
    description := rec.description
    specifications := rec.specifications.map .flat
    characteristics := rec.characteristics.map .flat
    features := rec.features
    url := rec.url
    video_url := rec.video_url
    catalog_status := rec.catalog_status
    brand_model := rec.brand_model
    image_url := rec.image_url
    created_at := some t
    updated_at := some t }

/-- `MedicalExpoScraper.save_product`: look up an existing row with
`SELECT id FROM products WHERE source_id = %s` (the `source` column is
not part of the lookup), then either the dynamic update or the dynamic
insert.  `product_data['source_id']` raises `KeyError` when the key is
absent, modelled as `none`. -/
def MedicalExpoScraper.save_product (rec : MeRecord) (t : Nat) (db : List ProductRow) :
    Option (List ProductRow) :=
  match rec.source_id with
  | none => none
  | some sid =>
    match findRowIdx (fun row => row.source_id == some sid) db with
    | some i => some (db.set i (meUpdateRow rec (db.getD i default) t))
    | none => some (db ++ [meInsertRow rec sid db.length t])

/-! ### Resilient executor -/

/-- Recursion core of `BaseScraper.retry_on_failure`.  `left` counts the
loop iterations still allowed (`max_retries - attempt`) and `a` is the
0-based attempt index.  The result triple is: the propagated outcome
(`none` models Python falling off the loop when `max_retries = 0` and
returning `None`), the list of back-off waits performed, and the number
of times the operation was invoked.  After a failure on the last allowed
attempt (`attempt == max_retries - 1`, i.e. `left = 1`) the caught
exception is re-raised by a bare `raise`, with no wait. -/
def retryAux {E A : Type} (f : Nat → Except E A) (delay : Nat) :
    Nat → Nat → Option (Except E A) × List Nat × Nat
  | 0, _ => (none, [], 0)
  | left + 1, a =>
    match f a with
    | .ok v => (some (.ok v), [], 1)
    | .error e =>
      if left = 0 then (some (.error e), [], 1)
      else
        let rest := retryAux f delay left (a + 1)
        (rest.1, delay * 2 ^ a :: rest.2.1, rest.2.2 + 1)

/-- `BaseScraper.retry_on_failure(func, max_retries, delay)`: run the
operation from attempt 0; the operation is modelled as a function of the
attempt index so that distinct attempts may have distinct outcomes. -/
def BaseScraper.retry_on_failure {E A : Type} (f : Nat → Except E A)
    (max_retries delay : Nat) : Option (Except E A) × List Nat × Nat :=
  retryAux f delay max_retries 0

/-! ### Pagination crawl controller (MedicalExpoScraper.scrape) -/

/-- Recursion core of the `while current_page <= max_pages` loop of
`MedicalExpoScraper.scrape`, with `left = max_pages - current + 1` the
number of loop entries still allowed.  Each loop entry extracts the
current page; then, if the next-page affordance exists, the controller
clicks it (a page navigation) and re-enters the loop with
`current_page + 1`, otherwise it breaks.  The result is the list of page
numbers extracted and the number of next-page clicks performed. -/
def meScrapeAux (hasNext : Nat → Bool) : Nat → Nat → List Nat × Nat
  | 0, _ => ([], 0)
  | left + 1, current =>
    if hasNext current then
      let rest := meScrapeAux hasNext left (current + 1)
      (current :: rest.1, rest.2 + 1)
    else ([current], 0)

/-- The page loop of `MedicalExpoScraper.scrape` started at page 1 with
budget `max_pages`. -/
def meScrapePages (hasNext : Nat → Bool) (max_pages : Nat) : List Nat × Nat :=
  meScrapeAux hasNext max_pages 1

/-- Total page navigations of a crawl: the initial category `goto` plus
one navigation per next-page click. -/
def mePageFetches (hasNext : Nat → Bool) (max_pages : Nat) : Nat :=
  1 + (meScrapePages hasNext max_pages).2

/-- A site whose every page reports a next-page affordance. -/
def alwaysNext : Nat → Bool := fun _ => true

/-! ### Error propagation of the item loops -/

/-- The per-product-URL loop of `MedicalExpoScraper.scrape` (lines
97-212): each URL's processing is wrapped in `try/except ... continue`,
so the loop reaches every URL whatever the earlier outcomes.  Result:
(count of successfully processed records, count of logged-and-skipped
records). -/
def meProcessOutcomes : List (Except String Unit) → Nat × Nat
  | [] => (0, 0)
  | .ok _ :: rest =>
    let p := meProcessOutcomes rest
    (p.1 + 1, p.2)
  | .error _ :: rest =>
    let p := meProcessOutcomes rest
    (p.1, p.2 + 1)

/-- Recursion core of the item loop of `AlibabaScraper.scrape`: the
budget check `items_scraped >= max_items` precedes each item, each
item's `scrape_product_page` call is unguarded, and
`scrape_product_page` re-raises every exception, so the first failing
item aborts the whole crawl with that error. -/
def alibabaRunAux : Nat → Nat → List (Except String Unit) → Except String Nat
  | scraped, _, [] => .ok scraped
  | scraped, maxItems, o :: rest =>
    if maxItems ≤ scraped then .ok scraped
    else
      match o with
      | .error e => .error e
      | .ok _ => alibabaRunAux (scraped + 1) maxItems rest

/-- The item loop of `AlibabaScraper.scrape` over the sequence of
per-item outcomes, starting with zero items scraped. -/
def alibabaScrapeRun (maxItems : Nat) (outcomes : List (Except String Unit)) :
    Except String Nat :=
  alibabaRunAux 0 maxItems outcomes

/-! ### Anti-bot handlers -/

/-- `BaseScraper.handle_anti_bot`: wait a random bounded delay, probe
for the captcha input and, when present, log a warning.  Nothing is
raised, nothing is retried, no challenge is solved; the returned value
is the log output only. -/
def BaseScraper.handle_anti_bot (captchaPresent : Bool) : List String :=
  if captchaPresent then
    ["Captcha detected! Manual intervention may be required."]
  else []

/-- `MedicalExpoScraper.handle_anti_bot`: wait for quiescence, then
best-effort dismissal of a cookie-consent prompt; every exception is
caught and logged, nothing is raised.  The returned value is the log
output only; lockout markers are not even probed on this path. -/
def MedicalExpoScraper.handle_anti_bot (consentPresent : Bool) : List String :=
  if consentPresent then ["consent dismissed"] else []

/-! ### Product-page pipelines -/

/-- The rendered state of an Alibaba product page, holding the values
the rendering-session adapter returns to `AlibabaScraper`'s extraction
calls (the adapter is an external collaborator per the spec). -/
structure AlibabaPage where
  loadOk : Bool := true
  captcha : Bool := false
  detailsPresent : Bool := true
  title : Option String := none
  categoryPath : Option String := none
  description : Option String := none
  specs : List (String × String) := []
  pricing : PricingEntry := {}
  seller : SellerEntry := {}
  images : List ImageEntry := []
deriving DecidableEq, Inhabited

/-- `AlibabaScraper.scrape_product_page`: navigate (a failure raises),
run the base anti-bot handler (log only), wait for the details container
(absence raises a timeout), then build `product_data` — `name` is read
with no required-field check — and hand it to `save_product`.  The
result is the log output paired with either the raised error or the
record submitted to the store. -/
def AlibabaScraper.scrape_product_page (url : List Char) (p : AlibabaPage) :
    List String × Except String BaseRecord :=
  if p.loadOk = false then ([], .error "NavigationError")
  else
    let logs := BaseScraper.handle_anti_bot p.captcha
    if p.detailsPresent = false then (logs, .error "TimeoutError")
    else
      (logs, .ok
        { source_id := String.mk (AlibabaScraper.extract_product_id url)
          name := p.title
          brand := none
          category := p.categoryPath
          description := p.description
          specifications := .flat p.specs
          images := some p.images
          pricing := some p.pricing
          seller := some p.seller })

/-- The rendered state of a Medline product page. -/
structure MedlinePage where
  loadOk : Bool := true
  captcha : Bool := false
  detailsPresent : Bool := true
  title : Option String := none
  brandText : Option String := none
  categoryText : Option String := none
  description : Option String := none
  specs : List (String × List (String × String)) := []
  pricing : PricingEntry := {}
  images : List ImageEntry := []
deriving DecidableEq, Inhabited

/-- `MedlineScraper.scrape_product_page`: same shape as the Alibaba
path — no required-field check on `name`, and the dict carries no
`seller` key. -/
def MedlineScraper.scrape_product_page (url : List Char) (p : MedlinePage) :
    List String × Except String BaseRecord :=
  if p.loadOk = false then ([], .error "NavigationError")
  else
    let logs := BaseScraper.handle_anti_bot p.captcha
    if p.detailsPresent = false then (logs, .error "TimeoutError")
    else
      (logs, .ok
        { source_id := String.mk (MedlineScraper.extract_sku url)
          name := p.title
          brand := p.brandText
          category := p.categoryText
          description := p.description
          specifications := .nested p.specs
          images := some p.images
          pricing := some p.pricing
          seller := none })

/-- The rendered state of a MedicalExpo product page as read by the
per-URL body of `MedicalExpoScraper.scrape`.  `charTexts` is the flat
`dt`/`dd` text sequence of the characteristics table. -/
structure MeProductPage where
  responseOk : Bool := true
  detailsPresent : Bool := true
  nameText : Option String := none
  manufacturerText : Option String := none
  charTexts : List String := []
  descriptionText : Option String := none
  videoSrc : Option String := none
deriving DecidableEq, Inhabited

/-- The per-product-URL body of `MedicalExpoScraper.scrape` (lines
98-208): extract `source_id` by regex from the URL, navigate (a bad
response skips the URL), wait for the details container (a timeout
skips), extract the fields, strip `None` values and submit to
`save_product` only when both `name` and `source_id` are truthy.  The
result is the record submitted, or `none` when the URL is skipped or
fails the guard. -/
def MedicalExpoScraper.processProductUrl (category : Option String) (url : String)
    (p : MeProductPage) : Option MeRecord :=
  let sid := (searchMeProductId url.data).map String.mk
  if p.responseOk = false then none
  else if p.detailsPresent = false then none
  else
    let data : MeRecord :=
      { source := some "medicalexpo"
        source_id := sid
        name := p.nameText
        manufacturer := p.manufacturerText
        category := category
        description := p.descriptionText
        specifications := some (addSpecPairs [] p.charTexts)
        url := some url
        video_url := p.videoSrc }
    if truthyOpt data.name && truthyOpt data.source_id then some data else none

/-- The rendered state of a MedicalExpo product page as read by
`MedicalExpoScraper.scrape_product_page`. -/
structure MeDetailPage where
  loadOk : Bool := true
  detailsPresent : Bool := true
  charTexts : List String := []
  descriptionText : Option String := none
  videoSrc : Option String := none
  catalogText : Option String := none
deriving DecidableEq, Inhabited

/-- `MedicalExpoScraper.scrape_product_page`: seed `product_data` with
the non-`None` entries of `initial_data` over a `None`-initialised dict
(`features`, `specifications` and `characteristics` start as empty
containers, which are not `None` and hence survive both the seeding and
the clean-up), enrich from the page, validate that `name` is truthy
(it can only come from the seed — the page never sets it), and submit.
The result is the record submitted to `save_product`, or `none` when the
page is skipped or the record dropped. -/
def MedicalExpoScraper.scrape_product_page (url : String) (init : Option MeRecord)
    (p : MeDetailPage) : Option MeRecord :=
  if p.loadOk = false then none
  else if p.detailsPresent = false then none
  else
    let base : MeRecord :=
      { features := some []
        specifications := some []
        characteristics := some []
        url := some url }
    let seeded : MeRecord :=
      match init with
      | none => base
      | some i =>
        { source := ovr i.source base.source
          source_id := ovr i.source_id base.source_id
          name := ovr i.name base.name
          manufacturer := ovr i.manufacturer base.manufacturer
          category := ovr i.category base.category
          description := ovr i.description base.description
          specifications := ovr i.specifications base.specifications
          characteristics := ovr i.characteristics base.characteristics
          features := ovr i.features base.features
          url := ovr i.url base.url
          video_url := ovr i.video_url base.video_url
          catalog_status := ovr i.catalog_status base.catalog_status
          brand_model := ovr i.brand_model base.brand_model
          image_url := ovr i.image_url base.image_url }
    let data : MeRecord :=
      { seeded with
        characteristics :=
          some (addSpecPairs (seeded.characteristics.getD []) p.charTexts)
        description := ovr p.descriptionText seeded.description
        video_url := ovr p.videoSrc seeded.video_url
        catalog_status := ovr p.catalogText seeded.catalog_status }
    if truthyOpt data.name then some data else none

/-! ### Shared lemmas -/

theorem ovr_self {α : Type} (o : Option α) : ovr o o = o := by
  cases o <;> rfl

theorem retryAux_calls_le {E A : Type} (f : Nat → Except E A) (d : Nat) :
    ∀ left a, (retryAux f d left a).2.2 ≤ left := by
  intro left
  induction left with
  | zero => intro a; simp [retryAux]
  | succ n ih =>
    intro a
    have hle := ih (a + 1)
    by_cases h : n = 0
    · subst h
      simp only [retryAux]
      cases f a <;> simp
    · simp only [retryAux]
      cases f a with
      | ok v => simp
      | error e =>
        simp only [h, if_false]
        simp
        omega

theorem retryAux_persistent {E A : Type} (f : Nat → Except E A) (e : Nat → E) (d : Nat)
    (hf : ∀ k, f k = .error (e k)) :
    ∀ left a, 1 ≤ left →
      retryAux f d left a =
        (some (.error (e (a + left - 1))),
         (List.range (left - 1)).map (fun k => d * 2 ^ (a + k)), left) := by
  intro left
  induction left with
  | zero => omega
  | succ n ih =>
    intro a _
    simp only [retryAux, hf a]
    by_cases h : n = 0
    · subst h; simp
    · simp only [if_neg h]
      rw [ih (a + 1) (by omega)]
      have hrange : (List.range n).map (fun k => d * 2 ^ (a + k)) =
          d * 2 ^ a :: (List.range (n - 1)).map (fun k => d * 2 ^ (a + 1 + k)) := by
        obtain ⟨m, rfl⟩ : ∃ m, n = m + 1 := ⟨n - 1, by omega⟩
        rw [List.range_succ_eq_map]
        simp only [List.map_cons, List.map_map, Nat.add_zero, Nat.add_sub_cancel]
        refine congrArg₂ List.cons rfl (List.map_congr_left ?_)
        intro k _
        have hk : a + (k + 1) = a + 1 + k := by omega
        simp [Function.comp, Nat.succ_eq_add_one, hk]
      simp only [Nat.add_sub_cancel]
      rw [hrange]
      have hidx : a + 1 + n - 1 = a + n := by omega
      have hidx2 : a + (n + 1) - 1 = a + n := by omega
      rw [hidx, hidx2]

theorem meScrapeAux_alwaysNext : ∀ n c,
    meScrapeAux alwaysNext n c = ((List.range n).map (· + c), n) := by
  intro n
  induction n with
  | zero => intro c; rfl
  | succ m ih =>
    intro c
    simp only [meScrapeAux, alwaysNext, if_pos rfl, ih (c + 1)]
    rw [List.range_succ_eq_map]
    simp only [List.map_cons, List.map_map, Nat.zero_add]
    refine congrArg₂ Prod.mk (congrArg₂ List.cons rfl (List.map_congr_left ?_)) rfl
    intro k _
    simp only [Function.comp, Nat.succ_eq_add_one]
    omega

theorem meProcessOutcomes_total : ∀ os : List (Except String Unit),
    (meProcessOutcomes os).1 + (meProcessOutcomes os).2 = os.length := by
  intro os
  induction os with
  | nil => rfl
  | cons o rest ih =>
    cases o <;> simp only [meProcessOutcomes, List.length_cons] <;> omega

theorem alibabaRunAux_abort : ∀ (pre : List (Except String Unit)) (k maxI : Nat)
    (e : String) (post : List (Except String Unit)),
    (∀ o ∈ pre, o = .ok ()) → k + pre.length < maxI →
    alibabaRunAux k maxI (pre ++ .error e :: post) = .error e := by
  intro pre
  induction pre with
  | nil =>
    intro k maxI e post _ hlt
    simp only [List.nil_append, alibabaRunAux]
    rw [if_neg (by omega)]
  | cons o rest ih =>
    intro k maxI e post hok hlt
    have ho : o = .ok () := hok o (List.mem_cons_self o rest)
    subst ho
    simp only [List.cons_append, alibabaRunAux]
    rw [if_neg (by simp at hlt ⊢; omega)]
    exact ih (k + 1) maxI e post (fun o ho => hok o (List.mem_cons_of_mem _ ho))
      (by simp at hlt ⊢; omega)

/-! ### Claim C5 -/

/-- C5: retry backoff schedule and error transparency.  For every
operation and every `maxAttempts m ≥ 1`, `baseDelay d`, the executor (a)
invokes the operation at most `m` times, and (b) on an operation failing
at every attempt it waits `d * 2 ^ (k - 1)` after the `k`-th failure for
`k < m` (so with `d = 100, m = 3`: 100 then 200), performs no wait after
the final failure, invokes the operation exactly `m` times, and
propagates the last attempt's error object itself, unwrapped. -/
theorem c5_retry_schedule {E A : Type} (f : Nat → Except E A) (e : Nat → E)
    (m d : Nat) (hm : 1 ≤ m) :
    (BaseScraper.retry_on_failure f m d).2.2 ≤ m ∧
    ((∀ k, f k = .error (e k)) →
      BaseScraper.retry_on_failure f m d =
        (some (.error (e (m - 1))),
         (List.range (m - 1)).map (fun k => d * 2 ^ k), m)) := by
  constructor
  · exact retryAux_calls_le f d m 0
  · intro hf
    rw [BaseScraper.retry_on_failure, retryAux_persistent f e d hf m 0 hm]
    simp

/-- C5 witness: a persistently failing operation with `d = 100, m = 3`
waits 100 then 200, is invoked 3 times, and the third failure's error is
returned as is. -/
theorem c5_retry_schedule_witness :
    BaseScraper.retry_on_failure (fun k => (Except.error (toString k) : Except String Unit)) 3 100 =
      (some (.error "2"), [100, 200], 3) := by
  have h := (c5_retry_schedule (fun k => (Except.error (toString k) : Except String Unit))
    (fun k => toString k) 3 100 (by omega)).2 (fun _ => rfl)
  rw [h]
  rfl

/-! ### Claim C6 -/

/-- C6 counterexample: with a page budget of 2 on a site that always
reports a next-page affordance the controller performs 3 page fetches
(the initial category navigation plus 2 next-page clicks — the second
click happens after page 2 was extracted, because the click is guarded
only by the affordance's existence), not the 2 `FetchingPage`
transitions the claim states; and already with budget 1 a next-page
click is performed although the page count (1) is not below the
budget (1), refuting the claimed advance guard. -/
theorem c6_counterexample :
    mePageFetches alwaysNext 2 = 3 ∧ ¬ mePageFetches alwaysNext 2 = 2 ∧
    (meScrapePages alwaysNext 1).2 = 1 := by
  refine ⟨rfl, by decide, rfl⟩

/-- C6 amended: for every page budget `N` on an always-next site the
controller extracts from exactly the pages `1..N` and then halts, but
the advance is guarded only by the affordance: it performs `N`
next-page clicks (one after each extracted page, including the last),
hence `N + 1` page fetches counting the initial category navigation. -/
theorem c6_page_budget (N : Nat) :
    meScrapePages alwaysNext N = ((List.range N).map (· + 1), N) ∧
    mePageFetches alwaysNext N = N + 1 := by
  have h := meScrapeAux_alwaysNext N 1
  refine ⟨h, ?_⟩
  rw [mePageFetches, meScrapePages, h]
  omega

/-! ### Claim C7 -/

/-- C7 counterexample: in the Alibaba crawl a single record whose
processing raises (e.g. a `StoreError` surviving retries) aborts the
whole crawl — the error propagates out of the item loop and the second
item is never processed — refuting "the overall crawl never aborts". -/
theorem c7_counterexample :
    alibabaScrapeRun 100 [Except.error "StoreError", Except.ok ()] =
      Except.error "StoreError" := rfl

/-- C7 amended: per-record error isolation holds on the MedicalExpo
crawl loop — every record is reached and the loop completes whatever the
per-record outcomes — but not on the Alibaba (or Medline) crawl, where
the first failing record's error aborts the whole session. -/
theorem c7_error_isolation :
    (∀ os : List (Except String Unit),
      (meProcessOutcomes os).1 + (meProcessOutcomes os).2 = os.length) ∧
    (∀ (maxItems : Nat) (pre : List (Except String Unit)) (e : String)
      (post : List (Except String Unit)),
      (∀ o ∈ pre, o = .ok ()) → pre.length < maxItems →
      alibabaScrapeRun maxItems (pre ++ .error e :: post) = .error e) := by
  refine ⟨meProcessOutcomes_total, ?_⟩
  intro maxItems pre e post hok hlt
  exact alibabaRunAux_abort pre 0 maxItems e post hok (by omega)

/-- C7 witness: the MedicalExpo loop processes both records of a
failing-then-succeeding batch, while the Alibaba loop aborts on the same
batch. -/
theorem c7_error_isolation_witness :
    (meProcessOutcomes [Except.error "StoreError", Except.ok ()]).1 +
      (meProcessOutcomes [Except.error "StoreError", Except.ok ()]).2 = 2 ∧
    alibabaScrapeRun 100 ([Except.ok ()] ++ Except.error "StoreError" :: []) =
      Except.error "StoreError" :=
  ⟨c7_error_isolation.1 [Except.error "StoreError", Except.ok ()],
   c7_error_isolation.2 100 [Except.ok ()] "StoreError" []
     (fun o ho => by simpa using ho) (by decide)⟩

/-! ### Claim C8 -/

/-- C8 counterexample: a page carrying the lockout marker (captcha
input) is NOT abandoned: the Alibaba product-page flow logs the captcha
warning yet still extracts the page and submits its record to the
store, refuting "the page is abandoned and the controller proceeds to
the next page/item". -/
theorem c8_counterexample :
    (AlibabaScraper.scrape_product_page "https://www.alibaba.com/product/123.html".data
        { captcha := true, title := some "X" }).1 =
      ["Captcha detected! Manual intervention may be required."] ∧
    ((AlibabaScraper.scrape_product_page "https://www.alibaba.com/product/123.html".data
        { captcha := true, title := some "X" }).2).map (fun r => r.name) =
      Except.ok (some "X") := by
  constructor <;> rfl

/-- C8 amended: lockout detection raises no fatal error, retries
nothing, and attempts no challenge solving — the base handler only
emits a warning log, and the MedicalExpo override does not even probe
lockout markers — but the page is NOT abandoned: the submitted outcome
of a product-page visit is identical whether or not the marker is
present. -/
theorem c8_anti_bot :
    (∀ (url : List Char) (p : AlibabaPage) (b : Bool),
      (AlibabaScraper.scrape_product_page url { p with captcha := b }).2 =
        (AlibabaScraper.scrape_product_page url p).2) ∧
    (∀ (url : List Char) (p : MedlinePage) (b : Bool),
      (MedlineScraper.scrape_product_page url { p with captcha := b }).2 =
        (MedlineScraper.scrape_product_page url p).2) ∧
    BaseScraper.handle_anti_bot true =
      ["Captcha detected! Manual intervention may be required."] ∧
    (∀ c, (MedicalExpoScraper.handle_anti_bot c).length ≤ 1) := by
  refine ⟨?_, ?_, rfl, ?_⟩
  · intro url p b
    cases hl : p.loadOk <;> cases hd : p.detailsPresent <;>
      simp [AlibabaScraper.scrape_product_page, hl, hd]
  · intro url p b
    cases hl : p.loadOk <;> cases hd : p.detailsPresent <;>
      simp [MedlineScraper.scrape_product_page, hl, hd]
  · intro c
    cases c <;> simp [MedicalExpoScraper.handle_anti_bot]

/-! ### Claim C10 -/

theorem truthyOpt_ne_none {o : Option String} (h : truthyOpt o = true) : o ≠ none := by
  intro hn
  subst hn
  simp [truthyOpt] at h

/-- C10: in the MedicalExpo listing crawl, a candidate record whose
`source_id` could not be regex-extracted from the product URL is never
submitted to `save_product`, whatever the page contents (in particular
even when `name` is present); and every submitted record has both
`name` and `source_id` non-absent. -/
theorem c10_source_id_guard (cat : Option String) (url : String) (p : MeProductPage) :
    (searchMeProductId url.data = none →
      MedicalExpoScraper.processProductUrl cat url p = none) ∧
    (∀ r, MedicalExpoScraper.processProductUrl cat url p = some r →
      r.name ≠ none ∧ r.source_id ≠ none) := by
  constructor
  · intro hsid
    simp only [MedicalExpoScraper.processProductUrl, hsid, Option.map_none']
    split
    · rfl
    · split
      · rfl
      · simp [truthyOpt]
  · intro r hr
    simp only [MedicalExpoScraper.processProductUrl] at hr
    split at hr
    · exact absurd hr (by simp)
    · split at hr
      · exact absurd hr (by simp)
      · split at hr
        · next hguard =>
            simp only [Bool.and_eq_true] at hguard
            injection hr with hr
            subst hr
            exact ⟨truthyOpt_ne_none hguard.1, truthyOpt_ne_none hguard.2⟩
        · exact absurd hr (by simp)

/-- C10 witness: a product URL without a `product-<digits>-<digits>`
token yields no save call even though the page has a name. -/
theorem c10_source_id_guard_witness :
    MedicalExpoScraper.processProductUrl none
      "https://www.medicalexpo.com/prod/item.html" { nameText := some "X" } = none :=
  (c10_source_id_guard none "https://www.medicalexpo.com/prod/item.html"
    { nameText := some "X" }).1 (by decide)

/-! ### Claim C4 -/

/-- C4 counterexample: the Alibaba product-page flow has no
required-field check — a page whose title element is missing still
submits its record to the store, and the record is persisted with
`name = NULL`, refuting "a candidate record with name absent is never
submitted to the store, on every save path of every scraper". -/
theorem c4_counterexample :
    ((AlibabaScraper.scrape_product_page "https://www.alibaba.com/product/123.html".data
        { title := none }).2).map
      (fun r => (BaseScraper.save_product "alibaba" r emptyStore).products.map
        (fun row => row.name)) = Except.ok [none] := by
  rfl

/-- C4 amended: the name-absent rejection holds only on the MedicalExpo
paths — both the listing crawl body and `scrape_product_page` drop a
record whose name is absent — while the Alibaba and Medline
product-page paths submit the record to the store with whatever `name`
the page yielded, including an absent one; nor is the name check the
pipeline's only hard rejection rule (the MedicalExpo listing path also
requires `source_id`, see C10). -/
theorem c4_required_field (cat : Option String) (url url2 : String)
    (p : MeProductPage) (init : Option MeRecord) (q : MeDetailPage)
    (u : List Char) (ap : AlibabaPage) (mp : MedlinePage) :
    (p.nameText = none → MedicalExpoScraper.processProductUrl cat url p = none) ∧
    ((init = none ∨ ∃ i, init = some i ∧ i.name = none) →
      MedicalExpoScraper.scrape_product_page url2 init q = none) ∧
    (ap.loadOk = true → ap.detailsPresent = true →
      ∃ r, (AlibabaScraper.scrape_product_page u ap).2 = .ok r ∧ r.name = ap.title) ∧
    (mp.loadOk = true → mp.detailsPresent = true →
      ∃ r, (MedlineScraper.scrape_product_page u mp).2 = .ok r ∧ r.name = mp.title) := by
  refine ⟨?_, ?_, ?_, ?_⟩
  · intro hname
    simp only [MedicalExpoScraper.processProductUrl, hname]
    split
    · rfl
    · split
      · rfl
      · simp [truthyOpt]
  · intro hinit
    simp only [MedicalExpoScraper.scrape_product_page]
    split
    · rfl
    · split
      · rfl
      · rcases hinit with h | ⟨i, hi, hn⟩
        · subst h
          simp [truthyOpt, ovr]
        · subst hi
          simp [hn, truthyOpt, ovr]
  · intro hl hd
    simp only [AlibabaScraper.scrape_product_page, hl, Bool.true_eq_false, if_false, hd]
    exact ⟨_, rfl, rfl⟩
  · intro hl hd
    simp only [MedlineScraper.scrape_product_page, hl, Bool.true_eq_false, if_false, hd]
    exact ⟨_, rfl, rfl⟩

/-- C4 witness: a name-absent record is dropped on the MedicalExpo
listing path, while the Alibaba path still submits a record whose name
is the (absent) page title. -/
theorem c4_required_field_witness :
    MedicalExpoScraper.processProductUrl none "u" {} = none ∧
    ∃ r, (AlibabaScraper.scrape_product_page [] {}).2 = .ok r ∧
      r.name = (({} : AlibabaPage)).title :=
  ⟨(c4_required_field none "u" "u" {} none {} [] {} {}).1 rfl,
   (c4_required_field none "u" "u" {} none {} [] {} {}).2.2.1 rfl rfl⟩

/-! ### Save-path lemmas -/

theorem me_save_insert (A : MeRecord) (sid : String) (t : Nat)
    (hA : A.source_id = some sid) :
    MedicalExpoScraper.save_product A t [] = some [meInsertRow A sid 0 t] := by
  simp [MedicalExpoScraper.save_product, hA, findRowIdx]

theorem me_save_update_singleton (B : MeRecord) (row : ProductRow) (sid : String) (t : Nat)
    (hB : B.source_id = some sid) (hrow : row.source_id = some sid) :
    MedicalExpoScraper.save_product B t [row] = some [meUpdateRow B row t] := by
  simp [MedicalExpoScraper.save_product, hB, findRowIdx, hrow, List.set]

theorem meUpdate_of_insert (r : MeRecord) (sid : String) (idv t1 t2 : Nat) :
    meUpdateRow r (meInsertRow r sid idv t1) t2 =
      { meInsertRow r sid idv t1 with updated_at := some t2 } := by
  simp [meUpdateRow, meInsertRow, ovr_self]

theorem base_save_products_update (s : String) (B : BaseRecord) (st : Store)
    (row : ProductRow) (hprod : st.products = [row])
    (hkey : sameNaturalKey row s B.source_id = true) :
    (BaseScraper.save_product s B st).products = [baseUpdateRow B row] := by
  have hfind : findRowIdx (fun r => sameNaturalKey r s B.source_id) [row] = some 0 := by
    simp [findRowIdx, hkey]
  simp [BaseScraper.save_product, hprod, hfind, List.set]

theorem base_save_products_insert (s : String) (B : BaseRecord) (st : Store)
    (hfind : findRowIdx (fun r => sameNaturalKey r s B.source_id) st.products = none) :
    (BaseScraper.save_product s B st).products =
      st.products ++ [baseInsertRow s B st.products.length] := by
  simp [BaseScraper.save_product, hfind]

theorem base_save_empty_products (s : String) (A : BaseRecord) :
    (BaseScraper.save_product s A emptyStore).products = [baseInsertRow s A 0] := by
  have h := base_save_products_insert s A emptyStore (by rfl)
  simpa [emptyStore] using h

theorem base_products_double (s : String) (A B : BaseRecord)
    (hkey : B.source_id = A.source_id) :
    (BaseScraper.save_product s B (BaseScraper.save_product s A emptyStore)).products =
      [baseUpdateRow B (baseInsertRow s A 0)] := by
  refine base_save_products_update s B _ _ (base_save_empty_products s A) ?_
  simp [sameNaturalKey, baseInsertRow, hkey]

theorem base_products_double_ne (s1 s2 : String) (A B : BaseRecord) (hne : s1 ≠ s2) :
    (BaseScraper.save_product s2 B (BaseScraper.save_product s1 A emptyStore)).products =
      [baseInsertRow s1 A 0, baseInsertRow s2 B 1] := by
  have hbeq : ((some s1 : Option String) == some s2) = false :=
    beq_eq_false_iff_ne.mpr (by simpa using hne)
  have hfind : findRowIdx (fun r => sameNaturalKey r s2 B.source_id)
      (BaseScraper.save_product s1 A emptyStore).products = none := by
    rw [base_save_empty_products s1 A]
    simp [findRowIdx, sameNaturalKey, baseInsertRow, hbeq]
  have h := base_save_products_insert s2 B (BaseScraper.save_product s1 A emptyStore) hfind
  rw [h, base_save_empty_products s1 A]
  rfl

theorem base_images_len (s : String) (r : BaseRecord) (st : Store) :
    (BaseScraper.save_product s r st).images.length =
      st.images.length + (r.images.getD []).length := by
  rcases h : r.images with _ | l <;> simp [BaseScraper.save_product, h]

theorem base_pricing_len (s : String) (r : BaseRecord) (st : Store) :
    (BaseScraper.save_product s r st).pricing.length =
      st.pricing.length + (if r.pricing.isSome then 1 else 0) := by
  rcases h : r.pricing with _ | p <;> simp [BaseScraper.save_product, h]

theorem base_sellers_len (s : String) (r : BaseRecord) (st : Store) :
    (BaseScraper.save_product s r st).sellers.length =
      st.sellers.length + (if r.seller.isSome then 1 else 0) := by
  rcases h : r.seller with _ | sl <;> simp [BaseScraper.save_product, h]

/-! ### Claim C1 -/

/-- C1 counterexample: on the base save path, saving record A with
`brand = "Y"` and then record B with the same natural key but `brand`
absent erases the stored brand to `NULL` — the `ON DUPLICATE KEY
UPDATE` statement always includes `brand = VALUES(brand)` — refuting
"the stored value of that field remains A's value". -/
theorem c1_counterexample :
    (BaseScraper.save_product "medline"
        { source_id := "1001", name := some "X", brand := some "Y" }
        emptyStore).products.map (fun row => row.brand) = [some "Y"] ∧
    (BaseScraper.save_product "medline" { source_id := "1001", name := some "X" }
        (BaseScraper.save_product "medline"
          { source_id := "1001", name := some "X", brand := some "Y" }
          emptyStore)).products.map (fun row => row.brand) = [none] := by
  constructor <;> rfl

/-- C1 amended: the no-erasure merge holds on the MedicalExpo save path,
whose dynamic `UPDATE` includes only the keys present in the incoming
dict and leaves absent fields untouched in storage; but it fails on the
base save path (used by the Alibaba and Medline scrapers), whose
`ON DUPLICATE KEY UPDATE` always writes `name`, `brand`, `category`,
`description` and `specifications`, erasing absent fields to `NULL`. -/
theorem c1_no_erasure :
    (∀ (A B : MeRecord) (sid : String) (t1 t2 : Nat),
      A.source_id = some sid → B.source_id = some sid → B.description = none →
      ∃ db1 db2, MedicalExpoScraper.save_product A t1 [] = some db1 ∧
        MedicalExpoScraper.save_product B t2 db1 = some db2 ∧
        db2.map (fun r => r.description) = [A.description]) ∧
    (∀ (s : String) (A B : BaseRecord) (y : String),
      B.source_id = A.source_id → A.brand = some y → B.brand = none →
      (BaseScraper.save_product s B (BaseScraper.save_product s A emptyStore)).products.map
        (fun row => row.brand) = [none]) := by
  constructor
  · intro A B sid t1 t2 hA hB hBd
    refine ⟨_, _, me_save_insert A sid t1 hA,
      me_save_update_singleton B _ sid t2 hB (by simp [meInsertRow]), ?_⟩
    simp [meUpdateRow, meInsertRow, hBd, ovr]
  · intro s A B y hkey hAb hBb
    rw [base_products_double s A B hkey]
    simp [baseUpdateRow, hBb]

/-- C1 witness: concrete records exercising the amended statement on
both save paths. -/
theorem c1_no_erasure_witness :
    (∃ db1 db2,
      MedicalExpoScraper.save_product
        { source_id := some "1-1", name := some "X", description := some "D" } 1 [] = some db1 ∧
      MedicalExpoScraper.save_product
        { source_id := some "1-1", name := some "X" } 2 db1 = some db2 ∧
      db2.map (fun r => r.description) = [some "D"]) ∧
    (BaseScraper.save_product "medline" { source_id := "1", name := some "X" }
      (BaseScraper.save_product "medline"
        { source_id := "1", name := some "X", brand := some "Y" }
        emptyStore)).products.map (fun row => row.brand) = [none] :=
  ⟨c1_no_erasure.1 { source_id := some "1-1", name := some "X", description := some "D" }
      { source_id := some "1-1", name := some "X" } "1-1" 1 2 rfl rfl rfl,
   c1_no_erasure.2 "medline" { source_id := "1", name := some "X", brand := some "Y" }
      { source_id := "1", name := some "X" } "Y" rfl rfl rfl⟩

/-! ### Claim C2 -/

/-- C2 counterexample: on the base save path the owned child rows are
appended, not replaced: saving the same record (with one image and a
pricing dict) twice leaves one product row but two image rows and two
pricing rows, refuting "it does not duplicate owned child rows
(... replaced wholesale on each reconciliation)". -/
theorem c2_counterexample :
    (BaseScraper.save_product "alibaba"
      { source_id := "123", name := some "X", images := some [{ url := "img" }],
        pricing := some {} }
      (BaseScraper.save_product "alibaba"
        { source_id := "123", name := some "X", images := some [{ url := "img" }],
          pricing := some {} }
        emptyStore)).products.length = 1 ∧
    (BaseScraper.save_product "alibaba"
      { source_id := "123", name := some "X", images := some [{ url := "img" }],
        pricing := some {} }
      (BaseScraper.save_product "alibaba"
        { source_id := "123", name := some "X", images := some [{ url := "img" }],
          pricing := some {} }
        emptyStore)).images.length = 2 := by
  constructor <;> rfl

/-- C2 amended: reconciling the same record twice yields exactly one
product row, and on the MedicalExpo path the second save is an
identical update apart from the refreshed `updated_at`; but owned child
collections are NOT replaced wholesale — the base path appends the
`images`, `pricing` and `seller` rows on every save, duplicating them
on the second pass (and no path writes `documents` rows, while the
MedicalExpo save path writes no child rows at all). -/
theorem c2_idempotence :
    (∀ (r : MeRecord) (sid : String) (t1 t2 : Nat), r.source_id = some sid →
      ∃ row, MedicalExpoScraper.save_product r t1 [] = some [row] ∧
        MedicalExpoScraper.save_product r t2 [row] =
          some [{ row with updated_at := some t2 }]) ∧
    (∀ (s : String) (r : BaseRecord),
      (BaseScraper.save_product s r (BaseScraper.save_product s r emptyStore)).products.length
        = 1 ∧
      (BaseScraper.save_product s r (BaseScraper.save_product s r emptyStore)).images.length
        = 2 * (r.images.getD []).length ∧
      (BaseScraper.save_product s r (BaseScraper.save_product s r emptyStore)).pricing.length
        = 2 * (if r.pricing.isSome then 1 else 0) ∧
      (BaseScraper.save_product s r (BaseScraper.save_product s r emptyStore)).sellers.length
        = 2 * (if r.seller.isSome then 1 else 0)) := by
  constructor
  · intro r sid t1 t2 hsid
    refine ⟨meInsertRow r sid 0 t1, me_save_insert r sid t1 hsid, ?_⟩
    rw [me_save_update_singleton r _ sid t2 hsid (by simp [meInsertRow]),
      meUpdate_of_insert]
  · intro s r
    have hp := base_products_double s r r rfl
    have hi1 := base_images_len s r emptyStore
    have hi2 := base_images_len s r (BaseScraper.save_product s r emptyStore)
    have hpr1 := base_pricing_len s r emptyStore
    have hpr2 := base_pricing_len s r (BaseScraper.save_product s r emptyStore)
    have hs1 := base_sellers_len s r emptyStore
    have hs2 := base_sellers_len s r (BaseScraper.save_product s r emptyStore)
    have hz1 : emptyStore.images.length = 0 := rfl
    have hz2 : emptyStore.pricing.length = 0 := rfl
    have hz3 : emptyStore.sellers.length = 0 := rfl
    refine ⟨by rw [hp]; rfl, ?_, ?_, ?_⟩ <;> omega

/-- C2 witness: concrete records exercising the amended statement on
both save paths. -/
theorem c2_idempotence_witness :
    (∃ row, MedicalExpoScraper.save_product
        { source_id := some "2-2", name := some "X" } 1 [] = some [row] ∧
      MedicalExpoScraper.save_product { source_id := some "2-2", name := some "X" } 2 [row] =
        some [{ row with updated_at := some 2 }]) ∧
    (BaseScraper.save_product "alibaba"
      { source_id := "9", images := some [{ url := "a" }, { url := "b" }] }
      (BaseScraper.save_product "alibaba"
        { source_id := "9", images := some [{ url := "a" }, { url := "b" }] }
        emptyStore)).images.length = 2 * 2 :=
  ⟨c2_idempotence.1 { source_id := some "2-2", name := some "X" } "2-2" 1 2 rfl,
   (c2_idempotence.2 "alibaba"
      { source_id := "9", images := some [{ url := "a" }, { url := "b" }] }).2.1⟩

/-! ### Claim C3 -/

/-- C3 counterexample: `MedicalExpoScraper.save_product` looks up by
`source_id` alone, so a record from source `alibaba` with the same
`source_id` as a stored `medicalexpo` record updates — overwrites —
that row (one row remains, its `source` and `name` replaced), refuting
"two records from different sources that share the same source_id are
treated as distinct products and never overwrite each other". -/
theorem c3_counterexample :
    ((MedicalExpoScraper.save_product
        { source := some "medicalexpo", source_id := some "7-7", name := some "X" } 1 []).bind
      (MedicalExpoScraper.save_product
        { source := some "alibaba", source_id := some "7-7", name := some "Z" } 2)).map
      (fun db => (db.length, db.map (fun r => r.source), db.map (fun r => r.name))) =
      some (1, [some "alibaba"], [some "Z"]) := by
  rfl

/-- C3 amended: the base save path does treat the full natural-key pair
as the identity — records from two different sources keep two distinct
rows and the first row is untouched by the second save — but
`MedicalExpoScraper.save_product` looks up by `source_id` alone, so on
that path a record from a different source with the same `source_id`
updates (overwrites) the existing row, including its `source` column. -/
theorem c3_natural_key :
    (∀ (s1 s2 : String) (A B : BaseRecord), s1 ≠ s2 →
      (BaseScraper.save_product s2 B (BaseScraper.save_product s1 A emptyStore)).products.length
        = 2 ∧
      (BaseScraper.save_product s2 B
          (BaseScraper.save_product s1 A emptyStore)).products.getD 0 default
        = baseInsertRow s1 A 0) ∧
    (∀ (A B : MeRecord) (sid : String) (t1 t2 : Nat),
      A.source_id = some sid → B.source_id = some sid →
      ∃ db1 db2, MedicalExpoScraper.save_product A t1 [] = some db1 ∧
        MedicalExpoScraper.save_product B t2 db1 = some db2 ∧
        db2.length = 1 ∧ db2.map (fun r => r.source) = [ovr B.source A.source]) := by
  constructor
  · intro s1 s2 A B hne
    rw [base_products_double_ne s1 s2 A B hne]
    exact ⟨rfl, rfl⟩
  · intro A B sid t1 t2 hA hB
    refine ⟨_, _, me_save_insert A sid t1 hA,
      me_save_update_singleton B _ sid t2 hB (by simp [meInsertRow]), rfl, ?_⟩
    simp [meUpdateRow, meInsertRow]

/-- C3 witness: concrete records exercising the amended statement on
both save paths. -/
theorem c3_natural_key_witness :
    ((BaseScraper.save_product "alibaba" { source_id := "7", name := some "B" }
        (BaseScraper.save_product "medline" { source_id := "7", name := some "A" }
          emptyStore)).products.length = 2 ∧
      (BaseScraper.save_product "alibaba" { source_id := "7", name := some "B" }
        (BaseScraper.save_product "medline" { source_id := "7", name := some "A" }
          emptyStore)).products.getD 0 default
        = baseInsertRow "medline" { source_id := "7", name := some "A" } 0) ∧
    (∃ db1 db2,
      MedicalExpoScraper.save_product
        { source := some "medicalexpo", source_id := some "3-3", name := some "A" } 1 []
        = some db1 ∧
      MedicalExpoScraper.save_product
        { source := some "alibaba", source_id := some "3-3", name := some "B" } 2 db1
        = some db2 ∧
      db2.length = 1 ∧
      db2.map (fun r => r.source) =
        [ovr (some "alibaba") (some "medicalexpo")]) :=
  ⟨c3_natural_key.1 "medline" "alibaba" { source_id := "7", name := some "A" }
      { source_id := "7", name := some "B" } (by decide),
   c3_natural_key.2
      { source := some "medicalexpo", source_id := some "3-3", name := some "A" }
      { source := some "alibaba", source_id := some "3-3", name := some "B" }
      "3-3" 1 2 rfl rfl⟩

/-! ### Regex lemmas for C9 -/

theorem takeWhile_all_append {α : Type} (p : α → Bool) (ds : List α) (x : α) (rest : List α)
    (hds : ∀ c ∈ ds, p c = true) (hx : p x = false) :
    (ds ++ x :: rest).takeWhile p = ds := by
  induction ds with
  | nil => simp [List.takeWhile_cons, hx]
  | cons d t ih =>
    have hd := hds d (List.mem_cons_self d t)
    simp only [List.cons_append, List.takeWhile_cons, hd, if_true]
    exact congrArg (d :: ·) (ih (fun c hc => hds c (List.mem_cons_of_mem d hc)))

theorem dropWhile_head_false {α : Type} (p : α → Bool) :
    ∀ (l : List α) (x : α) (xs : List α), l.dropWhile p = x :: xs → p x = false := by
  intro l
  induction l with
  | nil => intro x xs h; simp [List.dropWhile] at h
  | cons a t ih =>
    intro x xs h
    rw [List.dropWhile_cons] at h
    split at h
    · exact ih x xs h
    · next hp =>
        cases h
        simpa using hp

theorem drop_takeWhile_length {α : Type} (p : α → Bool) :
    ∀ l : List α, l.drop (l.takeWhile p).length = l.dropWhile p := by
  intro l
  induction l with
  | nil => rfl
  | cons a t ih =>
    by_cases hp : p a
    · rw [List.takeWhile_cons_of_pos hp, List.dropWhile_cons_of_pos hp]
      simpa using ih
    · rw [List.takeWhile_cons_of_neg hp, List.dropWhile_cons_of_neg hp]
      rfl

theorem matchAlibabaAt_sound (s ds : List Char) (h : matchAlibabaAt s = some ds) :
    ∃ suf, s = '/' :: (ds ++ htmlLit ++ suf) ∧ ds ≠ [] ∧ ∀ c ∈ ds, c.isDigit := by
  unfold matchAlibabaAt at h
  split at h
  · next rest =>
    split at h
    · exact absurd h (by simp)
    · next hemp =>
      split at h
      · next hpre =>
        injection h with h
        subst h
        rw [drop_takeWhile_length] at hpre
        obtain ⟨t, ht⟩ := List.isPrefixOf_iff_prefix.mp hpre
        refine ⟨t, ?_, ?_, fun c hc => List.mem_takeWhile_imp hc⟩
        · rw [List.append_assoc, ht, List.takeWhile_append_dropWhile]
        · intro hnil
          rw [hnil] at hemp
          simp at hemp
      · exact absurd h (by simp)
  · exact absurd h (by simp)

theorem matchAlibabaAt_complete (ds suf : List Char) (hne : ds ≠ [])
    (hdig : ∀ c ∈ ds, c.isDigit) :
    matchAlibabaAt ('/' :: (ds ++ htmlLit ++ suf)) = some ds := by
  have htw : (ds ++ htmlLit ++ suf).takeWhile Char.isDigit = ds := by
    rw [List.append_assoc]
    exact takeWhile_all_append Char.isDigit ds '.' (['h', 't', 'm', 'l'] ++ suf) hdig
      (by decide)
  have hdrop : (ds ++ htmlLit ++ suf).drop ds.length = htmlLit ++ suf := by
    rw [List.append_assoc]
    exact List.drop_left _ _
  have hemp : ds.isEmpty = false := by
    cases ds
    · exact absurd rfl hne
    · rfl
  simp only [matchAlibabaAt, htw, hemp, Bool.false_eq_true, if_false, hdrop]
  rw [if_pos (List.isPrefixOf_iff_prefix.mpr ⟨suf, rfl⟩)]

theorem searchAlibabaId_sound : ∀ (u ds : List Char), searchAlibabaId u = some ds →
    ∃ pre suf, u = pre ++ '/' :: (ds ++ htmlLit ++ suf) ∧ ds ≠ [] ∧ ∀ c ∈ ds, c.isDigit := by
  intro u
  induction u with
  | nil => intro ds h; simp [searchAlibabaId] at h
  | cons c cs ih =>
    intro ds h
    simp only [searchAlibabaId] at h
    cases hm : matchAlibabaAt (c :: cs) with
    | some ds2 =>
      rw [hm] at h
      simp only [Option.some.injEq] at h
      subst h
      obtain ⟨suf, hs, hne, hdig⟩ := matchAlibabaAt_sound _ _ hm
      exact ⟨[], suf, by simpa using hs, hne, hdig⟩
    | none =>
      rw [hm] at h
      obtain ⟨pre, suf, hu, hne, hdig⟩ := ih ds h
      exact ⟨c :: pre, suf, by rw [List.cons_append, ← hu], hne, hdig⟩

theorem searchAlibabaId_app : ∀ (pre ds suf : List Char), ds ≠ [] → (∀ c ∈ ds, c.isDigit) →
    searchAlibabaId (pre ++ '/' :: (ds ++ htmlLit ++ suf)) ≠ none := by
  intro pre
  induction pre with
  | nil =>
    intro ds suf hne hdig
    simp only [List.nil_append, searchAlibabaId]
    rw [matchAlibabaAt_complete ds suf hne hdig]
    simp
  | cons x pre ih =>
    intro ds suf hne hdig
    simp only [List.cons_append, searchAlibabaId]
    cases hm : matchAlibabaAt (x :: (pre ++ '/' :: (ds ++ htmlLit ++ suf))) with
    | some ds2 => simp
    | none =>
      show searchAlibabaId (pre ++ '/' :: (ds ++ htmlLit ++ suf)) ≠ none
      exact ih ds suf hne hdig

theorem matchMedlineAt_sound (s run : List Char) (h : matchMedlineAt s = some run) :
    ∃ suf, s = '/' :: 'p' :: '/' :: (run ++ suf) ∧ run ≠ [] ∧ '/' ∉ run := by
  unfold matchMedlineAt at h
  split at h
  · next rest =>
    split at h
    · exact absurd h (by simp)
    · next hemp =>
      injection h with h
      subst h
      refine ⟨rest.dropWhile (fun c => c ≠ '/'), ?_, ?_, ?_⟩
      · rw [List.takeWhile_append_dropWhile]
      · intro hnil
        rw [hnil] at hemp
        simp at hemp
      · intro hmem
        have := List.mem_takeWhile_imp hmem
        simp at this
  · exact absurd h (by simp)

theorem matchMedlineAt_complete (run suf : List Char) (hne : run ≠ []) (hnm : '/' ∉ run) :
    ∃ cap, matchMedlineAt ('/' :: 'p' :: '/' :: (run ++ suf)) = some cap := by
  obtain ⟨r, rs, rfl⟩ : ∃ r rs, run = r :: rs := by
    cases run
    · exact absurd rfl hne
    · exact ⟨_, _, rfl⟩
  have hr : r ≠ '/' := fun hh => hnm (hh ▸ List.mem_cons_self r rs)
  refine ⟨r :: (rs ++ suf).takeWhile (fun c => c ≠ '/'), ?_⟩
  simp only [matchMedlineAt, List.cons_append, List.takeWhile_cons]
  simp [hr]

theorem searchMedlineSku_sound : ∀ (u run : List Char), searchMedlineSku u = some run →
    ∃ pre suf, u = pre ++ '/' :: 'p' :: '/' :: (run ++ suf) ∧ run ≠ [] ∧ '/' ∉ run := by
  intro u
  induction u with
  | nil => intro run h; simp [searchMedlineSku] at h
  | cons c cs ih =>
    intro run h
    simp only [searchMedlineSku] at h
    cases hm : matchMedlineAt (c :: cs) with
    | some run2 =>
      rw [hm] at h
      simp only [Option.some.injEq] at h
      subst h
      obtain ⟨suf, hs, hne, hnm⟩ := matchMedlineAt_sound _ _ hm
      exact ⟨[], suf, by simpa using hs, hne, hnm⟩
    | none =>
      rw [hm] at h
      obtain ⟨pre, suf, hu, hne, hnm⟩ := ih run h
      exact ⟨c :: pre, suf, by rw [List.cons_append, ← hu], hne, hnm⟩

theorem searchMedlineSku_app : ∀ (pre run suf : List Char), run ≠ [] → '/' ∉ run →
    searchMedlineSku (pre ++ '/' :: 'p' :: '/' :: (run ++ suf)) ≠ none := by
  intro pre
  induction pre with
  | nil =>
    intro run suf hne hnm
    obtain ⟨cap, hcap⟩ := matchMedlineAt_complete run suf hne hnm
    simp [searchMedlineSku, hcap]
  | cons x pre ih =>
    intro run suf hne hnm
    simp only [List.cons_append, searchMedlineSku]
    cases hm : matchMedlineAt (x :: (pre ++ '/' :: 'p' :: '/' :: (run ++ suf))) with
    | some run2 => simp
    | none =>
      show searchMedlineSku (pre ++ '/' :: 'p' :: '/' :: (run ++ suf)) ≠ none
      exact ih run suf hne hnm

theorem splitLast_no_slash (u : List Char) : '/' ∉ splitLast u := by
  intro hmem
  rw [splitLast, List.mem_reverse] at hmem
  have := List.mem_takeWhile_imp hmem
  simp at this

theorem splitLast_decomposition (u : List Char) :
    (∃ pre, u = pre ++ '/' :: splitLast u) ∨ ('/' ∉ u ∧ splitLast u = u) := by
  have hsplit : u.reverse.takeWhile (fun c => c ≠ '/') ++
      u.reverse.dropWhile (fun c => c ≠ '/') = u.reverse :=
    List.takeWhile_append_dropWhile _ _
  cases hd : u.reverse.dropWhile (fun c => c ≠ '/') with
  | nil =>
    right
    rw [hd] at hsplit
    have htw : u.reverse.takeWhile (fun c => c ≠ '/') = u.reverse := by simpa using hsplit
    constructor
    · intro hmem
      have h2 : '/' ∈ u.reverse := List.mem_reverse.mpr hmem
      rw [← htw] at h2
      have := List.mem_takeWhile_imp h2
      simp at this
    · rw [splitLast, htw, List.reverse_reverse]
  | cons x xs =>
    left
    have hx : x = '/' := by
      have := dropWhile_head_false (fun c => decide (c ≠ '/')) u.reverse x xs hd
      simpa using this
    refine ⟨xs.reverse, ?_⟩
    subst hx
    conv_lhs => rw [← List.reverse_reverse u, ← hsplit]
    rw [hd, List.reverse_append, splitLast]
    simp

/-! ### Claim C9 -/

/-- C9: `extract_product_id` and `extract_sku` are total — they always
return a string, never an absent value: when the URL contains the
site's ID pattern the captured token is returned (for Alibaba a
nonempty digit run directly between a `'/'` and `".html"`; for Medline
a nonempty `'/'`-free run directly after `"/p/"`), otherwise the
characters after the URL's last `'/'` (possibly empty, and the whole
URL when it has no `'/'`), so a URL carrying no site identifier still
silently yields a source id. -/
theorem c9_extract_total (u : List Char) :
    (hasAlibabaId u → ∃ ds, searchAlibabaId u = some ds ∧
      AlibabaScraper.extract_product_id u = ds ∧ ds ≠ [] ∧ (∀ c ∈ ds, c.isDigit) ∧
      ∃ pre suf, u = pre ++ '/' :: (ds ++ htmlLit ++ suf)) ∧
    (¬ hasAlibabaId u → AlibabaScraper.extract_product_id u = splitLast u) ∧
    (hasMedlineSku u → ∃ run, searchMedlineSku u = some run ∧
      MedlineScraper.extract_sku u = run ∧ run ≠ [] ∧ '/' ∉ run ∧
      ∃ pre suf, u = pre ++ '/' :: 'p' :: '/' :: (run ++ suf)) ∧
    (¬ hasMedlineSku u → MedlineScraper.extract_sku u = splitLast u) ∧
    '/' ∉ splitLast u ∧
    ((∃ pre, u = pre ++ '/' :: splitLast u) ∨ ('/' ∉ u ∧ splitLast u = u)) := by
  refine ⟨?_, ?_, ?_, ?_, splitLast_no_slash u, splitLast_decomposition u⟩
  · rintro ⟨pre, ds, suf, hu, hne, hdig⟩
    have happ := searchAlibabaId_app pre ds suf hne hdig
    rw [← hu] at happ
    cases hs : searchAlibabaId u with
    | none => exact absurd hs happ
    | some ds2 =>
      obtain ⟨pre2, suf2, hu2, hne2, hdig2⟩ := searchAlibabaId_sound u ds2 hs
      exact ⟨ds2, rfl, by simp [AlibabaScraper.extract_product_id, hs], hne2, hdig2,
        pre2, suf2, hu2⟩
  · intro hno
    cases hs : searchAlibabaId u with
    | none => simp [AlibabaScraper.extract_product_id, hs]
    | some ds =>
      obtain ⟨pre, suf, hu, hne, hdig⟩ := searchAlibabaId_sound u ds hs
      exact absurd ⟨pre, ds, suf, hu, hne, hdig⟩ hno
  · rintro ⟨pre, run, suf, hu, hne, hnm⟩
    have happ := searchMedlineSku_app pre run suf hne hnm
    rw [← hu] at happ
    cases hs : searchMedlineSku u with
    | none => exact absurd hs happ
    | some run2 =>
      obtain ⟨pre2, suf2, hu2, hne2, hnm2⟩ := searchMedlineSku_sound u run2 hs
      exact ⟨run2, rfl, by simp [MedlineScraper.extract_sku, hs], hne2, hnm2,
        pre2, suf2, hu2⟩
  · intro hno
    cases hs : searchMedlineSku u with
    | none => simp [MedlineScraper.extract_sku, hs]
    | some run =>
      obtain ⟨pre, suf, hu, hne, hnm⟩ := searchMedlineSku_sound u run hs
      exact absurd ⟨pre, run, suf, hu, hne, hnm⟩ hno

/-- C9 witness: a concrete Alibaba product URL, exercising the matching
branch of the theorem. -/
theorem c9_extract_total_witness :
    ∃ ds, searchAlibabaId "https://www.alibaba.com/product/12345.html".data = some ds ∧
      AlibabaScraper.extract_product_id "https://www.alibaba.com/product/12345.html".data
        = ds ∧ ds ≠ [] ∧ (∀ c ∈ ds, c.isDigit) ∧
      ∃ pre suf, "https://www.alibaba.com/product/12345.html".data =
        pre ++ '/' :: (ds ++ htmlLit ++ suf) :=
  (c9_extract_total "https://www.alibaba.com/product/12345.html".data).1
    ⟨"https://www.alibaba.com/product".data, "12345".data, [],
      by decide, by decide, by decide⟩
